import Mathlib

/-!
Verification of the offline-first sync and caching layer of the journal web
client.  The definitions below are shallow embeddings of the JavaScript in
`src/script.js` and `src/db.js`: machine time is `Int` milliseconds, Firestore
collections are lists of records, IndexedDB object stores are lists with
explicit key semantics, and JS `Array.prototype.sort` (a stable sort) is
modelled by `List.insertionSort`, which is stable for the same comparator.
-/

namespace JournalSync

/-- A journal entry record as it flows between the Firestore `entries`
collection, the IndexedDB `entries` cache and the in-memory `journalEntries`
array.  `id` is the Firestore document id, `userId` the owner, `date` the
user-facing timestamp in epoch milliseconds (the spec's `timestamp`),
`updatedAt` the server write time in epoch milliseconds that drives delta
sync. -/
structure Entry where
  id : Nat
  userId : String
  date : Int
  updatedAt : Int
  content : String
deriving DecidableEq, Repr

/-- The comparator of `updatedEntries.sort((a, b) => new Date(b.date) - new Date(a.date))`
in `fetchAndMergeUpdates` and of the cold-load query `orderBy('date', 'desc')`:
`dateGe a b` holds when `a` may come before `b`, i.e. timestamp descending. -/
def dateGe (a b : Entry) : Prop := b.date ≤ a.date

instance : DecidableRel dateGe := fun a b => inferInstanceAs (Decidable (b.date ≤ a.date))

instance : IsTotal Entry dateGe := ⟨fun a b => le_total b.date a.date⟩

instance : IsTrans Entry dateGe := ⟨fun _ _ _ hab hbc => le_trans hbc hab⟩

/-- Firestore ordering of a delta query in `getUserEntries` when `lastSync` is
set: `orderBy('updatedAt', 'desc')` then `orderBy('date', 'desc')`. -/
def deltaGe (a b : Entry) : Prop :=
  b.updatedAt < a.updatedAt ∨ (b.updatedAt = a.updatedAt ∧ b.date ≤ a.date)

instance : DecidableRel deltaGe := fun a b =>
  inferInstanceAs (Decidable (b.updatedAt < a.updatedAt ∨ (b.updatedAt = a.updatedAt ∧ b.date ≤ a.date)))

/-- The merge step of `fetchAndMergeUpdates` (src/script.js lines 2283-2299):
records whose `id` is in the delta are dropped from the cached set
(`updatedIds`/`nonUpdatedEntries`), the delta is prepended, and the union is
re-sorted by `date` descending with the stable JS sort. -/
def mergeEntries (cachedEntries entries : List Entry) : List Entry :=
  let updatedIds := entries.map Entry.id
  let nonUpdatedEntries := cachedEntries.filter (fun e => !(updatedIds.contains e.id))
  List.insertionSort dateGe (entries ++ nonUpdatedEntries)

/-- `CACHE_CONFIG.maxAge`: 24 hours in milliseconds. -/
def cacheMaxAge : Int := 24 * 60 * 60 * 1000

/-- `CACHE_CONFIG.staleWhileRevalidate`. -/
def staleWhileRevalidate : Bool := true

/-- The validity test of `getFromCache`:
`lastSync && (now - new Date(lastSync).getTime()) < CACHE_CONFIG.maxAge`. -/
def isCacheValid (lastSync : Option Int) (now : Int) : Bool :=
  match lastSync with
  | none => false
  | some t => decide (now - t < cacheMaxAge)

section StableSortLemmas

variable {α : Type _} (r : α → α → Prop) [DecidableRel r]

theorem orderedInsert_of_forall_rel {a : α} {l : List α} (h : ∀ b ∈ l, r a b) :
    l.orderedInsert r a = a :: l := by
  cases l with
  | nil => rfl
  | cons b bs => exact List.orderedInsert_of_le r bs (h b (List.mem_cons_self b bs))

theorem insertionSort_append (A B : List α) :
    (A ++ B).insertionSort r = A.foldr (fun x s => s.orderedInsert r x) (B.insertionSort r) := by
  induction A with
  | nil => rfl
  | cons a A ih => simp [List.insertionSort, ih]

variable [IsTrans α r]

theorem filter_orderedInsert (p : α → Bool) (a : α) :
    ∀ l : List α, l.Sorted r →
      (l.orderedInsert r a).filter p =
        if p a then (l.filter p).orderedInsert r a else l.filter p := by
  intro l
  induction l with
  | nil =>
    intro _
    cases hpa : p a <;> simp [hpa]
  | cons b bs ih =>
    intro hs
    have hbs : bs.Sorted r := hs.of_cons
    by_cases hab : r a b
    · rw [List.orderedInsert_of_le r bs hab]
      cases hpa : p a with
      | false => simp [List.filter_cons, hpa]
      | true =>
        have hfront : ((b :: bs).filter p).orderedInsert r a = a :: (b :: bs).filter p := by
          apply orderedInsert_of_forall_rel
          intro c hc
          rcases List.mem_cons.mp (List.mem_of_mem_filter hc) with rfl | hmem
          · exact hab
          · exact IsTrans.trans a b c hab (List.rel_of_sorted_cons hs c hmem)
        rw [if_pos rfl, hfront]
        simp [List.filter_cons, hpa]
    · have hoi : (b :: bs).orderedInsert r a = b :: bs.orderedInsert r a := by
        simp [List.orderedInsert, hab]
      rw [hoi]
      cases hpb : p b <;> cases hpa : p a <;>
        simp [List.filter_cons, hpb, hpa, ih hbs, List.orderedInsert, hab]

theorem filter_insertionSort [IsTotal α r] (p : α → Bool) (l : List α) :
    (l.insertionSort r).filter p = (l.filter p).insertionSort r := by
  induction l with
  | nil => rfl
  | cons a l ih =>
    have hs := List.sorted_insertionSort r l
    rw [List.insertionSort, filter_orderedInsert r p a _ hs, ih]
    cases hpa : p a <;> simp [List.filter_cons, hpa, List.insertionSort]

theorem insertionSort_append_insertionSort [IsTotal α r] (A B : List α) :
    (A ++ B.insertionSort r).insertionSort r = (A ++ B).insertionSort r := by
  rw [insertionSort_append, insertionSort_append,
    List.Sorted.insertionSort_eq (List.sorted_insertionSort r B)]

end StableSortLemmas

/-- Cached entry `A(ts=5,upd=5)` of the spec's delta-merge scenario. -/
def entryA : Entry := { id := 1, userId := "u", date := 5, updatedAt := 5, content := "A" }

/-- Cached entry `B(ts=3,upd=3)` of the spec's delta-merge scenario. -/
def entryB : Entry := { id := 2, userId := "u", date := 3, updatedAt := 3, content := "B" }

/-- Delta record `A'(ts=5,upd=9)`: same `id` as `entryA`, newer write. -/
def entryA2 : Entry := { id := 1, userId := "u", date := 5, updatedAt := 9, content := "A2" }

theorem mergeEntries_filter_delta_eq_nil (D : List Entry) :
    D.filter (fun e => !((D.map Entry.id).contains e.id)) = [] := by
  rw [List.filter_eq_nil_iff]
  intro a ha
  simp [List.mem_map_of_mem Entry.id ha]

/-- C4: merging a delta into a non-empty cached set keeps exactly the delta
records plus the cached records whose `id` is not in the delta, re-sorted by
timestamp descending; in particular the spec's concrete scenario
`[A(5,5), B(3,3)]` merged with `[A'(5,9)]` yields `[A'(5,9), B(3,3)]`. -/
theorem c4_delta_merge (C D : List Entry) (hC : C ≠ []) :
    (∀ e : Entry, e ∈ mergeEntries C D ↔ e ∈ D ∨ (e ∈ C ∧ e.id ∉ D.map Entry.id)) ∧
    List.Sorted dateGe (mergeEntries C D) ∧
    mergeEntries [entryA, entryB] [entryA2] = [entryA2, entryB] := by
  refine ⟨?_, ?_, ?_⟩
  · intro e
    unfold mergeEntries
    simp [List.mem_insertionSort, List.mem_append, List.mem_filter]
  · exact List.sorted_insertionSort dateGe _
  · decide

/-- Witness for C4 at the spec's concrete scenario. -/
theorem c4_delta_merge_witness :
    List.Sorted dateGe (mergeEntries [entryA, entryB] [entryA2]) ∧
    mergeEntries [entryA, entryB] [entryA2] = [entryA2, entryB] :=
  ⟨(c4_delta_merge [entryA, entryB] [entryA2] (List.cons_ne_nil _ _)).2.1,
   (c4_delta_merge [entryA, entryB] [entryA2] (List.cons_ne_nil _ _)).2.2⟩

/-- C5: the delta merge is idempotent: applying the same delta fetch result
twice to a cached set gives the same final list (order included) as applying
it once. -/
theorem c5_delta_merge_idempotent (C D : List Entry) :
    mergeEntries (mergeEntries C D) D = mergeEntries C D := by
  unfold mergeEntries
  simp only []
  have h1 : (List.insertionSort dateGe
        (D ++ C.filter (fun e => !((D.map Entry.id).contains e.id)))).filter
          (fun e => !((D.map Entry.id).contains e.id)) =
      List.insertionSort dateGe
        ((D ++ C.filter (fun e => !((D.map Entry.id).contains e.id))).filter
          (fun e => !((D.map Entry.id).contains e.id))) :=
    filter_insertionSort dateGe _ _
  have h2 : (D ++ C.filter (fun e => !((D.map Entry.id).contains e.id))).filter
        (fun e => !((D.map Entry.id).contains e.id)) =
      C.filter (fun e => !((D.map Entry.id).contains e.id)) := by
    rw [List.filter_append, mergeEntries_filter_delta_eq_nil, List.nil_append,
      List.filter_eq_self.mpr]
    intro a ha
    exact (List.mem_filter.mp ha).2
  rw [h1, h2, insertionSort_append_insertionSort]

/-- C10: with `maxAge = 24h` a cache synced at `T` is valid at `T+23h59m`,
stale at exactly `T+24h` and at `T+24h00m01s`, and validity is the strict
comparison `now - lastSyncTimestamp < maxAge`. -/
theorem c10_cache_freshness (T : Int) :
    isCacheValid (some T) (T + 86340000) = true ∧
    isCacheValid (some T) (T + 86400000) = false ∧
    isCacheValid (some T) (T + 86401000) = false ∧
    (∀ t now : Int, isCacheValid (some t) now = true ↔ now - t < cacheMaxAge) := by
  refine ⟨?_, ?_, ?_, fun t now => ?_⟩ <;> simp [isCacheValid, cacheMaxAge] <;> try omega

/-- `PAGINATION_CONFIG.pageSize`. -/
def pageSize : Nat := 50

/-- The options object of `getUserEntries` (src/db.js): `lastSync` switches on
the delta constraints, `limit` is the page size (`none` models a falsy page
size), `startAfter` the pagination cursor (an opaque document position), and
`startDate`/`endDate` the optional date-window filters. -/
structure QueryOptions where
  lastSync : Option Int := none
  limit : Option Nat := some 50
  startAfter : Option Nat := none
  startDate : Option Int := none
  endDate : Option Int := none
deriving DecidableEq, Repr

/-- What `getUserEntries` resolves with: the page of records and
`hasMore = (querySnapshot.size === pageSize)`. -/
structure QueryResult where
  entries : List Entry
  hasMore : Bool
deriving DecidableEq, Repr

/-- Failure modes surfaced by the repository client. -/
inductive JsError
  | typeError
  | networkError
deriving DecidableEq, Repr

instance {ε α : Type _} [DecidableEq ε] [DecidableEq α] : DecidableEq (Except ε α) := fun a b =>
  match a, b with
  | .ok x, .ok y => if h : x = y then .isTrue (by rw [h]) else .isFalse (by simp [h])
  | .error x, .error y => if h : x = y then .isTrue (by rw [h]) else .isFalse (by simp [h])
  | .ok _, .error _ => .isFalse (by simp)
  | .error _, .ok _ => .isFalse (by simp)

/-- The Firestore query built by `getUserEntries` when no cursor is applied:
conjunctive `where` filters on owner, `updatedAt > lastSync` and the date
window, ordering by `updatedAt` desc then `date` desc for a delta query and by
`date` desc otherwise, and a `limit(pageSize)` page. -/
def runQuery (remote : List Entry) (userId : String) (lastSync : Option Int)
    (lim : Option Nat) (startDate endDate : Option Int) : QueryResult :=
  let constrained := remote.filter (fun e =>
    e.userId == userId
      && (match lastSync with | some t => decide (t < e.updatedAt) | none => true)
      && (match startDate with | some d => decide (d ≤ e.date) | none => true)
      && (match endDate with | some d => decide (e.date ≤ d) | none => true))
  let ordered := match lastSync with
    | some _ => List.insertionSort deltaGe constrained
    | none => List.insertionSort dateGe constrained
  let page := match lim with
    | some n => ordered.take n
    | none => ordered
  { entries := page,
    hasMore := match lim with
      | some n => page.length == n
      | none => false }

/-- `getUserEntries` (src/db.js lines 122-195).  When a cursor and a page size
are both supplied, the destructured `startAfter` option shadows the imported
Firestore `startAfter` function and `startAfter(startAfter)` invokes the
cursor object, so the call rejects with a `TypeError` before any query runs;
in every other case the cursor is never applied and the plain query runs. -/
def getUserEntries (remote : List Entry) (userId : String) (opts : QueryOptions) :
    Except JsError QueryResult :=
  if opts.startAfter.isSome && opts.limit.isSome then .error .typeError
  else .ok (runQuery remote userId opts.lastSync opts.limit opts.startDate opts.endDate)

/-- Per-user contents of the IndexedDB `journalCache` database: the `entries`
store restricted to the user, and the `lastSync_<uid>` metadata timestamp. -/
structure CacheState where
  entries : List Entry
  lastSync : Option Int
deriving DecidableEq, Repr

/-- `getFromCache` (src/script.js lines 273-324): returns the cached entries
together with the `isStale` flag; with `staleWhileRevalidate` disabled an
invalid cache would read back empty. -/
def getFromCache (c : CacheState) (now : Int) : List Entry × Bool :=
  let valid := isCacheValid c.lastSync now
  if !valid && !staleWhileRevalidate then ([], true)
  else (c.entries, !valid)

/-- Result of one `fetchAndMergeUpdates` call: the final `journalEntries`
array, the cache afterwards, and how many remote queries were issued. -/
structure FetchOutcome where
  rendered : List Entry
  cache : CacheState
  queries : Nat
deriving DecidableEq, Repr

/-- `fetchAndMergeUpdates` (src/script.js lines 2250-2322): read the
watermark, issue a single `getUserEntries` query (with `lastSync` set exactly
when the cached set is non-empty), merge, and persist the merged set with a
fresh watermark whenever anything was fetched. -/
def fetchAndMergeUpdates (remote : List Entry) (userId : String)
    (cachedEntries : List Entry) (cache : CacheState) (now : Int) : FetchOutcome :=
  if userId == "" then { rendered := cachedEntries, cache := cache, queries := 0 }
  else
    let opts : QueryOptions :=
      if cachedEntries.length > 0 then { limit := some pageSize, lastSync := cache.lastSync }
      else { limit := some pageSize }
    let res := runQuery remote userId opts.lastSync opts.limit opts.startDate opts.endDate
    if res.entries.length > 0 then
      let updatedEntries :=
        if cachedEntries.length > 0 then mergeEntries cachedEntries res.entries
        else List.insertionSort dateGe res.entries
      { rendered := updatedEntries,
        cache := { entries := updatedEntries, lastSync := some now },
        queries := 1 }
    else if cachedEntries.length > 0 then
      { rendered := cachedEntries, cache := cache, queries := 1 }
    else
      { rendered := [], cache := cache, queries := 1 }

/-- Outcome of one `loadEntries` call: what was rendered straight from the
cache before any network activity, the fetch outcome, and whether the fetch
was deferred to a background task (`setTimeout`). -/
structure LoadOutcome where
  initialRender : Option (List Entry)
  fetch : FetchOutcome
  backgroundFetch : Bool
deriving DecidableEq, Repr

/-- `loadEntries` (src/script.js lines 842-896): read the cache first; a
non-empty cache renders immediately; a stale non-empty cache schedules the
fetch in the background and returns; otherwise — the valid-cache case
included — the function falls through to an awaited `fetchAndMergeUpdates`. -/
def loadEntries (remote : List Entry) (userId : String) (cache : CacheState) (now : Int) :
    LoadOutcome :=
  if userId == "" then
    { initialRender := none,
      fetch := { rendered := [], cache := cache, queries := 0 },
      backgroundFetch := false }
  else
    let read := getFromCache cache now
    if read.1.length > 0 then
      if read.2 then
        { initialRender := some read.1,
          fetch := fetchAndMergeUpdates remote userId read.1 cache now,
          backgroundFetch := true }
      else
        { initialRender := some read.1,
          fetch := fetchAndMergeUpdates remote userId read.1 cache now,
          backgroundFetch := false }
    else
      { initialRender := none,
        fetch := fetchAndMergeUpdates remote userId read.1 cache now,
        backgroundFetch := false }

theorem fetchAndMergeUpdates_queries (remote : List Entry) (u : String)
    (ce : List Entry) (c : CacheState) (now : Int) (hu : u ≠ "") :
    (fetchAndMergeUpdates remote u ce c now).queries = 1 := by
  have hub : (u == "") = false := by simpa using hu
  simp only [fetchAndMergeUpdates, hub, Bool.false_eq_true, if_false]
  split <;> first | rfl | split <;> rfl

/-- The single cached entry of the valid-cache counterexample world. -/
def c1Entry : Entry := { id := 7, userId := "u", date := 100, updatedAt := 100, content := "hello" }

/-- A cache for user `u` holding one entry with the watermark at time 0. -/
def c1Cache : CacheState := { entries := [c1Entry], lastSync := some 0 }

/-- C1 is false on the code: with a non-empty cache whose watermark is well
inside the 24h window, `loadEntries` still makes one remote query — the early
return guards only the stale branch, and the valid-cache path falls through to
an awaited delta fetch. -/
theorem c1_counterexample :
    isCacheValid c1Cache.lastSync 1000 = true ∧
    c1Cache.entries ≠ [] ∧
    (loadEntries [] "u" c1Cache 1000).fetch.queries = 1 ∧
    ¬ (loadEntries [] "u" c1Cache 1000).fetch.queries = 0 := by decide

/-- C1 amended: when the cache holds at least one entry and is valid, the load
renders the cached entries immediately and still performs exactly one remote
query — an awaited foreground delta fetch, not a background one. -/
theorem c1_amended (remote : List Entry) (u : String) (c : CacheState) (now : Int)
    (hu : u ≠ "") (hne : c.entries ≠ []) (hvalid : isCacheValid c.lastSync now = true) :
    (loadEntries remote u c now).initialRender = some c.entries ∧
    (loadEntries remote u c now).backgroundFetch = false ∧
    (loadEntries remote u c now).fetch.queries = 1 := by
  have hub : (u == "") = false := by simpa using hu
  have hlen : 0 < c.entries.length := List.length_pos.mpr hne
  have hread : getFromCache c now = (c.entries, false) := by
    simp [getFromCache, hvalid]
  refine ⟨?_, ?_, ?_⟩ <;>
    simp [loadEntries, hub, hread, hlen, fetchAndMergeUpdates_queries remote u c.entries c now hu]

/-- Witness for C1 amended at the counterexample world. -/
theorem c1_amended_witness :
    (loadEntries [] "u" c1Cache 1000).initialRender = some c1Cache.entries ∧
    (loadEntries [] "u" c1Cache 1000).backgroundFetch = false ∧
    (loadEntries [] "u" c1Cache 1000).fetch.queries = 1 :=
  c1_amended [] "u" c1Cache 1000 (by decide) (by decide) (by decide)

/-- The cold-start remote of the spec scenario: 120 entries owned by user
`u` with strictly descending timestamps. -/
def remote120 : List Entry :=
  (List.range 120).map (fun i =>
    { id := i, userId := "u", date := 1000000 - (i : Int), updatedAt := 1000000 - (i : Int),
      content := "" })

/-- The empty local cache. -/
def emptyCache : CacheState := { entries := [], lastSync := none }

/-- C3 is false on the code: a single cold `loadEntries` over a remote of 120
entries issues exactly one paginated query — there is no cursor-following
loop — and afterwards the cache holds exactly the 50 newest entries (the
first page of the timestamp-descending remote), not all 120. -/
theorem c3_counterexample :
    (loadEntries remote120 "u" emptyCache 0).fetch.queries = 1 ∧
    ¬ (loadEntries remote120 "u" emptyCache 0).fetch.queries = 3 ∧
    (loadEntries remote120 "u" emptyCache 0).fetch.cache.entries.length = 50 ∧
    ¬ (loadEntries remote120 "u" emptyCache 0).fetch.cache.entries.length = 120 ∧
    (loadEntries remote120 "u" emptyCache 0).fetch.cache.entries = remote120.take 50 := by
  decide

theorem runQuery_cold_spec (remote : List Entry) (u : String) :
    (runQuery remote u none (some pageSize) none none).entries.length ≤ pageSize ∧
    (runQuery remote u none (some pageSize) none none).entries ⊆
      remote.filter (fun e => e.userId == u) ∧
    List.Sorted dateGe (runQuery remote u none (some pageSize) none none).entries := by
  refine ⟨?_, ?_, ?_⟩
  · simpa [runQuery] using List.length_take_le pageSize _
  · intro x hx
    simp only [runQuery] at hx
    have hx1 := (List.mem_insertionSort dateGe).mp (List.take_subset _ _ hx)
    have hx2 := List.mem_filter.mp hx1
    refine List.mem_filter.mpr ⟨hx2.1, ?_⟩
    simpa using hx2.2
  · simp only [runQuery]
    exact (List.sorted_insertionSort dateGe _).sublist (List.take_sublist _ _)

/-- C3 amended: a cold load (empty cache) performs exactly one remote fetch
and afterwards the cache holds exactly the `pageSize` newest of the user's
remote entries — the first page of the timestamp-descending stable sort —
hence at most `pageSize` records, sorted by timestamp descending and drawn
from the user's remote records. -/
theorem c3_amended (remote : List Entry) (u : String) (now : Int) (hu : u ≠ "") :
    (loadEntries remote u emptyCache now).fetch.queries = 1 ∧
    (loadEntries remote u emptyCache now).fetch.cache.entries =
      (List.insertionSort dateGe (remote.filter (fun e => e.userId == u))).take pageSize ∧
    (loadEntries remote u emptyCache now).fetch.cache.entries.length ≤ pageSize ∧
    List.Sorted dateGe (loadEntries remote u emptyCache now).fetch.cache.entries ∧
    (loadEntries remote u emptyCache now).fetch.cache.entries ⊆
      remote.filter (fun e => e.userId == u) := by
  have hub : (u == "") = false := by simpa using hu
  have hfilter : (fun (e : Entry) => e.userId == u && true && true && true) =
      fun e => e.userId == u := by
    funext e
    simp
  have hq_entries : (runQuery remote u none (some pageSize) none none).entries =
      (List.insertionSort dateGe (remote.filter (fun e => e.userId == u))).take pageSize := by
    show (List.insertionSort dateGe (remote.filter (fun e =>
        e.userId == u && true && true && true))).take pageSize =
      (List.insertionSort dateGe (remote.filter (fun e => e.userId == u))).take pageSize
    rw [hfilter]
  have hsorted_take : List.Sorted dateGe
      ((List.insertionSort dateGe (remote.filter (fun e => e.userId == u))).take pageSize) :=
    (List.sorted_insertionSort dateGe _).sublist (List.take_sublist _ _)
  have hcold : loadEntries remote u emptyCache now =
      { initialRender := none,
        fetch := fetchAndMergeUpdates remote u [] emptyCache now,
        backgroundFetch := false } := by
    simp [loadEntries, getFromCache, emptyCache, isCacheValid, hub]
  by_cases h : (runQuery remote u none (some pageSize) none none).entries.length > 0
  · have hfetch : fetchAndMergeUpdates remote u [] emptyCache now =
        ⟨List.insertionSort dateGe (runQuery remote u none (some pageSize) none none).entries,
         ⟨List.insertionSort dateGe (runQuery remote u none (some pageSize) none none).entries,
          some now⟩, 1⟩ := by
      simp [fetchAndMergeUpdates, hub, h]
    have hcache : (loadEntries remote u emptyCache now).fetch.cache.entries =
        (List.insertionSort dateGe (remote.filter (fun e => e.userId == u))).take pageSize := by
      rw [hcold, hfetch]
      show List.insertionSort dateGe (runQuery remote u none (some pageSize) none none).entries =
        (List.insertionSort dateGe (remote.filter (fun e => e.userId == u))).take pageSize
      rw [hq_entries, List.Sorted.insertionSort_eq hsorted_take]
    refine ⟨?_, hcache, ?_, ?_, ?_⟩
    · rw [hcold, hfetch]
    · rw [hcache]
      exact List.length_take_le _ _
    · rw [hcache]
      exact hsorted_take
    · rw [hcache]
      intro x hx
      exact (List.mem_insertionSort dateGe).mp (List.take_subset _ _ hx)
  · have hnil : (runQuery remote u none (some pageSize) none none).entries = [] :=
      List.length_eq_zero.mp (Nat.eq_zero_of_not_pos h)
    have htake : (List.insertionSort dateGe
        (remote.filter (fun e => e.userId == u))).take pageSize = [] := by
      rw [← hq_entries, hnil]
    have hfetch : fetchAndMergeUpdates remote u [] emptyCache now =
        { rendered := [], cache := emptyCache, queries := 1 } := by
      simp [fetchAndMergeUpdates, hub, h]
    refine ⟨?_, ?_, ?_, ?_, ?_⟩ <;> rw [hcold, hfetch] <;> simp [emptyCache, htake]

/-- Witness for C3 amended at the 120-entry cold-start scenario. -/
theorem c3_amended_witness :
    (loadEntries remote120 "u" emptyCache 0).fetch.queries = 1 ∧
    (loadEntries remote120 "u" emptyCache 0).fetch.cache.entries =
      (List.insertionSort dateGe (remote120.filter (fun e => e.userId == "u"))).take pageSize ∧
    (loadEntries remote120 "u" emptyCache 0).fetch.cache.entries.length ≤ pageSize ∧
    List.Sorted dateGe (loadEntries remote120 "u" emptyCache 0).fetch.cache.entries ∧
    (loadEntries remote120 "u" emptyCache 0).fetch.cache.entries ⊆
      remote120.filter (fun e => e.userId == "u") :=
  c3_amended remote120 "u" 0 (by decide)

/-- C7: whenever a pagination cursor is supplied together with a page size,
`getUserEntries` rejects with a `TypeError`: the destructured cursor value
shadows the imported Firestore `startAfter` function and is invoked as one, so
cursor-following calls never return a page. -/
theorem c7_cursor_shadowing (remote : List Entry) (u : String) (cursor : Nat)
    (ls : Option Int) (n : Nat) :
    getUserEntries remote u { lastSync := ls, limit := some n, startAfter := some cursor } =
      .error .typeError := rfl

/-- Milliseconds per day. -/
def msPerDay : Int := 24 * 60 * 60 * 1000

/-- `_getLocalMidnight` (src/db.js) and `formatDateKey` (src/script.js):
truncate a timestamp to the start of its calendar day; the model fixes the
timezone offset at zero. -/
def localMidnight (t : Int) : Int := t - t % msPerDay

theorem localMidnight_idem (t : Int) : localMidnight (localMidnight t) = localMidnight t := by
  simp only [localMidnight, msPerDay]
  omega

/-- A survey record as it moves between the local stores and the Firestore
`surveys` collection: `targetDate` is `metadata.targetDate` (normalized to
local midnight by every writer), `status` is `draft` or `completed`, and
`note` stands for the remaining opaque payload (metrics, mood, reflection). -/
structure SurveyRec where
  userId : String := ""
  targetDate : Int := 0
  status : String := ""
  note : String := ""
deriving DecidableEq, Repr

/-- Keyed read of an IndexedDB store whose `keyPath` is the target date. -/
def storeGet (store : List SurveyRec) (k : Int) : Option SurveyRec :=
  store.find? (fun r => r.targetDate == k)

/-- IndexedDB `put`: upsert by key. -/
def storePut (store : List SurveyRec) (rec : SurveyRec) : List SurveyRec :=
  if (store.find? (fun r => r.targetDate == rec.targetDate)).isSome then
    store.map (fun r => if r.targetDate == rec.targetDate then rec else r)
  else store ++ [rec]

/-- IndexedDB `delete` by key. -/
def storeDelete (store : List SurveyRec) (k : Int) : List SurveyRec :=
  store.filter (fun r => !(r.targetDate == k))

/-- `getCachedSurvey`: keyed read of `surveysCache` after re-normalizing the
date. -/
def getCachedSurvey (surveysCache : List SurveyRec) (targetDate : Int) : Option SurveyRec :=
  storeGet surveysCache (localMidnight targetDate)

/-- `cacheSurvey`: upsert into `surveysCache` under the normalized date. -/
def cacheSurvey (surveysCache : List SurveyRec) (s : SurveyRec) : List SurveyRec :=
  storePut surveysCache { s with targetDate := localMidnight s.targetDate }

/-- `loadDraft`: keyed read of `drafts` on the normalized date. -/
def loadDraft (drafts : List SurveyRec) (targetDate : Int) : Option SurveyRec :=
  storeGet drafts (localMidnight targetDate)

/-- `getFirebaseSurveyForDate` (src/db.js lines 326-345): Firestore query
`where userId ==`, `where metadata.targetDate ==`, `limit(1)`. -/
def getFirebaseSurveyForDate (docs : List (Nat × SurveyRec)) (userId : String)
    (targetDate : Int) : Option (Nat × SurveyRec) :=
  docs.find? (fun d => d.2.userId == userId && d.2.targetDate == targetDate)

/-- Failure modes of a remote survey write. -/
inductive SurveyError
  | duplicateSurvey
  | network
deriving DecidableEq, Repr

/-- `saveSurvey` (src/db.js lines 260-277): reject with the duplicate error
when any survey already exists for the owner and date, otherwise append the
record under a fresh document id; `remoteOk = false` injects a backend write
failure. -/
def saveSurvey (docs : List (Nat × SurveyRec)) (userId : String) (survey : SurveyRec)
    (remoteOk : Bool) : Except SurveyError (List (Nat × SurveyRec)) :=
  match getFirebaseSurveyForDate docs userId survey.targetDate with
  | some _ => .error .duplicateSurvey
  | none =>
    if remoteOk then .ok (docs ++ [(docs.length, { survey with userId := userId })])
    else .error .network

/-- The local IndexedDB `journalDB` stores touched by the survey pipeline. -/
structure DBState where
  surveys : List SurveyRec
  drafts : List SurveyRec
  surveysCache : List SurveyRec
deriving DecidableEq, Repr

/-- `DatabaseService.submitSurvey` (src/db.js lines 541-594): add the
completed record to the local `surveys` store and delete the draft, and only
then — when a user is signed in — attempt the remote `saveSurvey`; a remote
rejection propagates but the local writes stay committed. -/
def submitSurvey (st : DBState) (docs : List (Nat × SurveyRec)) (user : Option String)
    (data : SurveyRec) (remoteOk : Bool) :
    Except SurveyError Unit × DBState × List (Nat × SurveyRec) :=
  let targetDate := localMidnight data.targetDate
  let survey : SurveyRec := { data with targetDate := targetDate, status := "completed" }
  let st1 : DBState :=
    { st with surveys := st.surveys ++ [survey], drafts := storeDelete st.drafts targetDate }
  match user with
  | some uid =>
    match saveSurvey docs uid survey remoteOk with
    | .ok newDocs => (.ok (), st1, newDocs)
    | .error e => (.error e, st1, docs)
  | none => (.ok (), st1, docs)

/-- `DatabaseService.getSurveyForDate` (src/db.js lines 596-634): local
completed-survey cache first, then the remote repository when a user id is
present (back-filling the local cache on a hit), then the local draft
re-labelled `status := draft`, else nothing. -/
def getSurveyForDate (st : DBState) (docs : List (Nat × SurveyRec)) (targetDate : Int)
    (user : Option String) : Option SurveyRec × DBState :=
  let localTargetDate := localMidnight targetDate
  match getCachedSurvey st.surveysCache localTargetDate with
  | some localSurvey => (some localSurvey, st)
  | none =>
    match user with
    | some uid =>
      match getFirebaseSurveyForDate docs uid localTargetDate with
      | some fs =>
        (some fs.2, { st with surveysCache := cacheSurvey st.surveysCache fs.2 })
      | none =>
        match loadDraft st.drafts localTargetDate with
        | some draft => (some { draft with status := "draft" }, st)
        | none => (none, st)
    | none =>
      match loadDraft st.drafts localTargetDate with
      | some draft => (some { draft with status := "draft" }, st)
      | none => (none, st)

/-- The day key of an entry, `formatDateKey(entry.date)`. -/
def dateKeyOf (e : Entry) : Int := localMidnight e.date

/-- The state the entry mutations act on: the Firestore collection, the local
entry cache store, the in-memory `journalEntries` array, and the date index
(`PAGINATION_CONFIG.entryDates` mirrored into the dates cache). -/
structure EntrySysState where
  remoteEntries : List Entry
  cacheEntries : List Entry
  journal : List Entry
  entryDates : List Int
deriving DecidableEq, Repr

/-- `saveEntry` (src/script.js lines 1770-1864) after the image uploads:
write the entry to Firestore, which assigns the document id; only on success
mirror it into the cache, prepend it to `journalEntries` and add its day to
the date index.  On a remote failure nothing local is touched. -/
def saveEntryFlow (st : EntrySysState) (userId : String) (newEntry : Entry)
    (remoteOk : Bool) : Except JsError Unit × EntrySysState :=
  if remoteOk then
    let entry := { newEntry with id := st.remoteEntries.length, userId := userId }
    (.ok (),
      { remoteEntries := st.remoteEntries ++ [entry],
        cacheEntries := st.cacheEntries ++ [entry],
        journal := entry :: st.journal,
        entryDates := if st.entryDates.contains (dateKeyOf entry) then st.entryDates
          else st.entryDates ++ [dateKeyOf entry] })
  else (.error .networkError, st)

/-- The edit flow (src/script.js lines 1725-1751): remote `updateEntry`
first, then the in-memory record is replaced; a remote failure leaves every
local structure untouched. -/
def updateEntryFlow (st : EntrySysState) (entryId : Nat) (newContent : String)
    (remoteOk : Bool) : Except JsError Unit × EntrySysState :=
  if remoteOk then
    (.ok (),
      { st with
        remoteEntries := st.remoteEntries.map (fun e =>
          if e.id == entryId then { e with content := newContent } else e),
        journal := st.journal.map (fun e =>
          if e.id == entryId then { e with content := newContent } else e) })
  else (.error .networkError, st)

/-- `deleteEntry` (src/script.js lines 1890-1987) for an entry found at
`journalEntries` index `i`: best-effort image deletes, remote record delete
(`remoteOk` injects its failure), removal from the cache store, `splice` of
the in-memory array — and then the date-index maintenance, which reads
`journalEntries[entryIndex]` AFTER the splice: the date key checked belongs
to the record now sitting at `i` (a TypeError when the splice emptied that
position), and that date is dropped exactly when one entry with its key is
left. -/
def deleteEntryFlow (st : EntrySysState) (i : Nat) (remoteOk : Bool) :
    Except JsError Unit × EntrySysState :=
  match st.journal[i]? with
  | none => (.ok (), st)
  | some victim =>
    if remoteOk then
      let remoteAfter := st.remoteEntries.filter (fun e => !(e.id == victim.id))
      let cacheAfter := st.cacheEntries.filter (fun e => !(e.id == victim.id))
      let journalAfter := st.journal.eraseIdx i
      match journalAfter[i]? with
      | none =>
        (.error .typeError,
          { remoteEntries := remoteAfter, cacheEntries := cacheAfter,
            journal := journalAfter, entryDates := st.entryDates })
      | some nxt =>
        if (journalAfter.filter (fun e => dateKeyOf e == dateKeyOf nxt)).length == 1 then
          (.ok (),
            { remoteEntries := remoteAfter, cacheEntries := cacheAfter,
              journal := journalAfter,
              entryDates := st.entryDates.filter (fun d => !(d == dateKeyOf nxt)) })
        else
          (.ok (),
            { remoteEntries := remoteAfter, cacheEntries := cacheAfter,
              journal := journalAfter, entryDates := st.entryDates })
    else (.error .networkError, st)

/-- The survey payload promoted in the C2 counterexample (timestamp 100 lies
on day 0). -/
def surveyData0 : SurveyRec := { userId := "", targetDate := 100, status := "", note := "day one" }

/-- The draft for day 0 present before the C2 counterexample submission. -/
def draft0 : SurveyRec := { userId := "", targetDate := 0, status := "draft", note := "day one" }

/-- C2 is false on the code for survey submission: `submitSurvey` with a
signed-in user and a failing remote propagates the error, yet the local
`surveys` store has gained the completed record and the draft is gone — the
local cache is not unchanged. -/
theorem c2_counterexample :
    (submitSurvey ⟨[], [draft0], []⟩ [] (some "u") surveyData0 false).1 = .error .network ∧
    (submitSurvey ⟨[], [draft0], []⟩ [] (some "u") surveyData0 false).2.1.surveys =
      [{ surveyData0 with targetDate := 0, status := "completed" }] ∧
    (submitSurvey ⟨[], [draft0], []⟩ [] (some "u") surveyData0 false).2.1.drafts = [] ∧
    (submitSurvey ⟨[], [draft0], []⟩ [] (some "u") surveyData0 false).2.2 =
      ([] : List (Nat × SurveyRec)) := by decide

/-- C2 amended: the remote-first ordering holds for the entry mutations — a
failed remote write returns the state untouched — while
`DatabaseService.submitSurvey` commits the completed record to the local
`surveys` store and deletes the draft BEFORE the remote write, so a failed
remote write leaves exactly those local changes in place and the remote
collection unchanged. -/
theorem c2_amended :
    (∀ (st : EntrySysState) (u : String) (e : Entry),
        saveEntryFlow st u e false = (.error .networkError, st)) ∧
    (∀ (st : EntrySysState) (i : Nat) (c : String),
        updateEntryFlow st i c false = (.error .networkError, st)) ∧
    (∀ (st : EntrySysState) (i : Nat), (deleteEntryFlow st i false).2 = st) ∧
    (∀ (st : DBState) (docs : List (Nat × SurveyRec)) (uid : String) (data : SurveyRec),
        (submitSurvey st docs (some uid) data false).2.1.surveys =
          st.surveys ++
            [{ data with targetDate := localMidnight data.targetDate, status := "completed" }] ∧
        (submitSurvey st docs (some uid) data false).2.1.drafts =
          storeDelete st.drafts (localMidnight data.targetDate) ∧
        (submitSurvey st docs (some uid) data false).2.2 = docs ∧
        (submitSurvey st docs (some uid) data false).1.isOk = false) := by
  refine ⟨fun st u e => rfl, fun st i c => rfl, fun st i => ?_, fun st docs uid data => ?_⟩
  · cases h : st.journal[i]? <;> simp [deleteEntryFlow, h]
  · cases hfs : getFirebaseSurveyForDate docs uid (localMidnight data.targetDate) <;>
      simp [submitSurvey, saveSurvey, hfs] <;> rfl

/-- One remote `saveSurvey` request: requesting user, record, and whether the
backend accepts the write. -/
structure SaveOp where
  userId : String
  survey : SurveyRec
  remoteOk : Bool
deriving DecidableEq, Repr

/-- The remote `surveys` collection after a sequence of `saveSurvey` calls
starting from `docs`; a rejected call leaves the collection unchanged. -/
def applySaveOps (docs : List (Nat × SurveyRec)) : List SaveOp → List (Nat × SurveyRec)
  | [] => docs
  | op :: ops =>
    match saveSurvey docs op.userId op.survey op.remoteOk with
    | .ok docs2 => applySaveOps docs2 ops
    | .error _ => applySaveOps docs ops

/-- Number of survey documents (any status) for one (owner, date) key. -/
def surveyCount (docs : List (Nat × SurveyRec)) (userId : String) (targetDate : Int) : Nat :=
  (docs.filter (fun d => d.2.userId == userId && d.2.targetDate == targetDate)).length

/-- Number of completed survey documents for one (owner, date) key. -/
def completedCount (docs : List (Nat × SurveyRec)) (userId : String) (targetDate : Int) : Nat :=
  (docs.filter (fun d =>
    d.2.userId == userId && d.2.targetDate == targetDate && d.2.status == "completed")).length

theorem completedCount_le_surveyCount (docs : List (Nat × SurveyRec)) (u : String) (k : Int) :
    completedCount docs u k ≤ surveyCount docs u k := by
  apply List.Sublist.length_le
  apply List.monotone_filter_right
  intro d hd
  simp only [Bool.and_eq_true] at hd ⊢
  exact hd.1

theorem saveSurvey_ok_surveyCount {docs docs2 : List (Nat × SurveyRec)} {uid : String}
    {s : SurveyRec} {ok : Bool} (h : saveSurvey docs uid s ok = .ok docs2)
    (hinv : ∀ u k, surveyCount docs u k ≤ 1) : ∀ u k, surveyCount docs2 u k ≤ 1 := by
  intro u k
  unfold saveSurvey at h
  cases hfind : getFirebaseSurveyForDate docs uid s.targetDate with
  | some d => rw [hfind] at h; exact absurd h (by simp)
  | none =>
    rw [hfind] at h
    cases ok with
    | false => exact absurd h (by simp)
    | true =>
      simp only [if_true] at h
      have hd2 : docs2 = docs ++ [(docs.length, { s with userId := uid })] := by
        cases h; rfl
      subst hd2
      unfold surveyCount at hinv ⊢
      rw [List.filter_append, List.length_append]
      by_cases hmatch : (uid == u && s.targetDate == k) = true
      · have hm := hmatch
        simp only [Bool.and_eq_true, beq_iff_eq] at hm
        obtain ⟨hu, hk⟩ := hm
        have hzero : (docs.filter (fun d => d.2.userId == u && d.2.targetDate == k)).length = 0 := by
          rw [List.length_eq_zero, List.filter_eq_nil_iff]
          intro d hd
          have hnone := List.find?_eq_none.mp (by
            unfold getFirebaseSurveyForDate at hfind
            exact hfind) d hd
          subst hu
          subst hk
          exact hnone
        have hone : (List.filter (fun d => d.2.userId == u && d.2.targetDate == k)
            [((docs.length, { s with userId := uid }) : Nat × SurveyRec)]).length = 1 := by
          simp [List.filter_cons,
            show (({ s with userId := uid } : SurveyRec).userId == u &&
              ({ s with userId := uid } : SurveyRec).targetDate == k) = true from hmatch]
        rw [hzero, hone]
      · have hfalse : (uid == u && s.targetDate == k) = false :=
          Bool.eq_false_iff.mpr hmatch
        have hone : (List.filter (fun d => d.2.userId == u && d.2.targetDate == k)
            [((docs.length, { s with userId := uid }) : Nat × SurveyRec)]).length = 0 := by
          simp [List.filter_cons,
            show (({ s with userId := uid } : SurveyRec).userId == u &&
              ({ s with userId := uid } : SurveyRec).targetDate == k) = false from hfalse]
        rw [hone]
        simpa using hinv u k

theorem applySaveOps_surveyCount (ops : List SaveOp) :
    ∀ docs : List (Nat × SurveyRec), (∀ u k, surveyCount docs u k ≤ 1) →
      ∀ u k, surveyCount (applySaveOps docs ops) u k ≤ 1 := by
  induction ops with
  | nil => intro docs h; exact h
  | cons op ops ih =>
    intro docs h u k
    unfold applySaveOps
    cases hs : saveSurvey docs op.userId op.survey op.remoteOk with
    | error e => exact ih docs h u k
    | ok docs2 => exact ih docs2 (saveSurvey_ok_surveyCount hs h) u k

/-- C6: after any sequence of remote `saveSurvey` calls starting from an empty
collection at most one completed survey exists per (owner, targetDate); and a
`saveSurvey` against a collection already holding a completed survey for the
key fails with the duplicate-survey error, returning no new collection, so the
existing record stays. -/
theorem c6_at_most_one_completed :
    (∀ (ops : List SaveOp) (u : String) (k : Int),
        completedCount (applySaveOps [] ops) u k ≤ 1) ∧
    (∀ (docs : List (Nat × SurveyRec)) (u : String) (s : SurveyRec) (ok : Bool),
        (∃ d ∈ docs, d.2.userId = u ∧ d.2.targetDate = s.targetDate ∧
            d.2.status = "completed") →
        saveSurvey docs u s ok = .error .duplicateSurvey) := by
  constructor
  · intro ops u k
    refine le_trans (completedCount_le_surveyCount _ u k) ?_
    exact applySaveOps_surveyCount ops [] (by intro u2 k2; simp [surveyCount]) u k
  · intro docs u s ok hex
    unfold saveSurvey
    cases hfind : getFirebaseSurveyForDate docs u s.targetDate with
    | some d => rfl
    | none =>
      exfalso
      obtain ⟨d, hd, h1, h2, h3⟩ := hex
      have hnone := List.find?_eq_none.mp (by
        unfold getFirebaseSurveyForDate at hfind
        exact hfind) d hd
      simp [h1, h2] at hnone

/-- First accepted write of the C6 witness sequence. -/
def opA : SaveOp :=
  { userId := "u",
    survey := { userId := "", targetDate := 0, status := "completed", note := "first" },
    remoteOk := true }

/-- Second write for the same (owner, date) key, to be rejected. -/
def opB : SaveOp :=
  { userId := "u",
    survey := { userId := "", targetDate := 0, status := "completed", note := "second" },
    remoteOk := true }

/-- A collection already holding a completed survey for user `u` on day 0. -/
def completedDoc : Nat × SurveyRec :=
  (0, { userId := "u", targetDate := 0, status := "completed", note := "first" })

/-- Witness for C6: the two-write sequence keeps the count at one, and a
duplicate write against an occupied key is rejected. -/
theorem c6_at_most_one_completed_witness :
    completedCount (applySaveOps [] [opA, opB]) "u" 0 ≤ 1 ∧
    saveSurvey [completedDoc] "u"
        { userId := "", targetDate := 0, status := "completed", note := "second" } true =
      .error .duplicateSurvey :=
  ⟨c6_at_most_one_completed.1 [opA, opB] "u" 0,
   c6_at_most_one_completed.2 [completedDoc] "u"
     { userId := "", targetDate := 0, status := "completed", note := "second" } true
     ⟨completedDoc, by decide, rfl, rfl, rfl⟩⟩

/-- C8: `getSurveyForDate` answers from the first hit of: local
completed-survey cache (state untouched), remote repository when a user id is
present (the hit is back-filled into the local cache), local draft re-labelled
`status := draft`, and otherwise returns nothing with the state untouched. -/
theorem c8_survey_lookup_order (st : DBState) (docs : List (Nat × SurveyRec))
    (d : Int) (user : Option String) :
    (∀ s_, getCachedSurvey st.surveysCache (localMidnight d) = some s_ →
        getSurveyForDate st docs d user = (some s_, st)) ∧
    (∀ uid fs, user = some uid →
        getCachedSurvey st.surveysCache (localMidnight d) = none →
        getFirebaseSurveyForDate docs uid (localMidnight d) = some fs →
        getSurveyForDate st docs d user =
          (some fs.2, { st with surveysCache := cacheSurvey st.surveysCache fs.2 })) ∧
    (∀ dr, getCachedSurvey st.surveysCache (localMidnight d) = none →
        (∀ uid, user = some uid → getFirebaseSurveyForDate docs uid (localMidnight d) = none) →
        loadDraft st.drafts (localMidnight d) = some dr →
        getSurveyForDate st docs d user = (some { dr with status := "draft" }, st)) ∧
    (getCachedSurvey st.surveysCache (localMidnight d) = none →
        (∀ uid, user = some uid → getFirebaseSurveyForDate docs uid (localMidnight d) = none) →
        loadDraft st.drafts (localMidnight d) = none →
        getSurveyForDate st docs d user = (none, st)) := by
  refine ⟨?_, ?_, ?_, ?_⟩
  · intro s_ h
    simp [getSurveyForDate, h]
  · intro uid fs huser hmiss hfs
    subst huser
    simp [getSurveyForDate, hmiss, hfs]
  · intro dr hmiss hremote hdr
    cases user with
    | none => simp [getSurveyForDate, hmiss, hdr]
    | some uid => simp [getSurveyForDate, hmiss, hremote uid rfl, hdr]
  · intro hmiss hremote hdr
    cases user with
    | none => simp [getSurveyForDate, hmiss, hdr]
    | some uid => simp [getSurveyForDate, hmiss, hremote uid rfl, hdr]

/-- A completed survey sitting in the local cache for day 0. -/
def cachedS : SurveyRec := { userId := "u", targetDate := 0, status := "completed", note := "c" }

/-- A completed survey sitting only in the remote collection for day 0. -/
def remoteS : Nat × SurveyRec :=
  (3, { userId := "u", targetDate := 0, status := "completed", note := "r" })

/-- A draft sitting only in the local drafts store for day 0. -/
def draftS : SurveyRec := { userId := "", targetDate := 0, status := "draft", note := "d" }

/-- Witness for C8: one concrete lookup per layer of the cascade. -/
theorem c8_survey_lookup_order_witness :
    getSurveyForDate ⟨[], [], [cachedS]⟩ [] 0 (some "u") = (some cachedS, ⟨[], [], [cachedS]⟩) ∧
    getSurveyForDate ⟨[], [], []⟩ [remoteS] 0 (some "u") =
      (some remoteS.2, ⟨[], [], cacheSurvey [] remoteS.2⟩) ∧
    getSurveyForDate ⟨[], [draftS], []⟩ [] 0 (some "u") =
      (some { draftS with status := "draft" }, ⟨[], [draftS], []⟩) ∧
    getSurveyForDate ⟨[], [], []⟩ [] 0 none = (none, ⟨[], [], []⟩) :=
  ⟨(c8_survey_lookup_order ⟨[], [], [cachedS]⟩ [] 0 (some "u")).1 cachedS (by decide),
   (c8_survey_lookup_order ⟨[], [], []⟩ [remoteS] 0 (some "u")).2.1 "u" remoteS rfl
     (by decide) (by decide),
   (c8_survey_lookup_order ⟨[], [draftS], []⟩ [] 0 (some "u")).2.2.1 draftS (by decide)
     (by intro uid h; rfl) (by decide),
   (c8_survey_lookup_order ⟨[], [], []⟩ [] 0 none).2.2.2 (by decide)
     (by intro uid h; cases h) (by decide)⟩

/-- The sole entry of calendar day 0 in the C9 scenario. -/
def entryE : Entry := { id := 1, userId := "u", date := 0, updatedAt := 0, content := "e" }

/-- The sole entry of calendar day 1 in the C9 scenario. -/
def entryF : Entry := { id := 2, userId := "u", date := 86400000, updatedAt := 0, content := "f" }

/-- C9: deleting `entryE` (index 0; sole entry of day 0, `entryF` being the
sole entry of day 1) does remove the entry from the cache store, but the
date-index step reads the post-splice `journalEntries[entryIndex]` — here
`entryF` — and, finding exactly one entry on day 1, removes the still
occupied day 1 from the index while the emptied day 0 is kept; when the
deleted entry was the last array element the step instead throws a TypeError
and no date is removed at all. -/
theorem c9_date_index_bug :
    (deleteEntryFlow ⟨[entryE, entryF], [entryE, entryF], [entryE, entryF],
        [0, 86400000]⟩ 0 true).2.cacheEntries = [entryF] ∧
    (deleteEntryFlow ⟨[entryE, entryF], [entryE, entryF], [entryE, entryF],
        [0, 86400000]⟩ 0 true).2.entryDates = [0] ∧
    (deleteEntryFlow ⟨[entryE], [entryE], [entryE], [0]⟩ 0 true).1 =
      .error .typeError ∧
    (deleteEntryFlow ⟨[entryE], [entryE], [entryE], [0]⟩ 0 true).2.entryDates = [0] := by
  decide

end JournalSync
